import Mathlib

/-!
Verification of the component model of `target-lexicon` (`src/targets.rs`):
the architecture / vendor / operating-system / environment / binary-format
enumerations, their string codecs (`FromStr` / `Display`), the custom-vendor
validator, and the derived-attribute functions (`endianness`,
`pointer_width`, `is_thumb`, `default_binary_format`).

Parsers are embedded as `String → Option _` (Rust's `Result<_, ()>` with
`Err(())` mapped to `none`) and formatters as `_ → String`.  The numeric
components of `macosx` version strings are embedded as `Nat` together with
the `< 65536` bound carried by the Rust type `u16`.
-/

namespace TargetLexicon

/-! ### Decimal numerals

`u16::from_str` (used by `OperatingSystem::from_str` via
`num.parse::<u16>()`) accepts an optional leading `'+'` followed by one or
more ASCII decimal digits, with every intermediate value checked to stay
below `2^16`.  Rust's `Display` for `u16` prints the minimal decimal form.
-/

/-- One step of `u16` digit accumulation: `char::to_digit(10)` accepts only
ASCII `'0'..='9'`. -/
def charToDigit (c : Char) : Option Nat :=
  if 48 ≤ c.toNat ∧ c.toNat ≤ 57 then some (c.toNat - 48) else none

/-- The digit-accumulation loop of `u16::from_str`: `checked_mul` /
`checked_add` against the `u16` bound. -/
def parseU16Loop : List Char → Nat → Option Nat
  | [], acc => some acc
  | c :: cs, acc =>
    match charToDigit c with
    | none => none
    | some d => if acc * 10 + d < 65536 then parseU16Loop cs (acc * 10 + d) else none

/-- `str::parse::<u16>()`: empty input fails, a single leading `'+'` is
stripped (a bare `"+"` fails), then the digit loop runs from `0`. -/
def parseU16 (cs : List Char) : Option Nat :=
  match cs with
  | [] => none
  | c :: rest =>
    let digits := if c = '+' then rest else c :: rest
    if digits = [] then none
    else parseU16Loop digits 0

/-- `str::split('.')`: splits at every dot, keeping empty chunks; the empty
string yields one empty chunk. -/
def splitDot : List Char → List (List Char)
  | [] => [[]]
  | c :: rest =>
    if c = '.' then [] :: splitDot rest
    else
      match splitDot rest with
      | [] => [[c]]
      | h :: t => (c :: h) :: t

/-- Fuelled decimal printer (fuel-first so that it is structurally
recursive and evaluates in the kernel); `decRepr` below supplies enough
fuel. -/
def decReprCore : Nat → Nat → List Char → List Char
  | 0, _, acc => acc
  | fuel + 1, n, acc =>
    if n < 10 then Nat.digitChar n :: acc
    else decReprCore fuel (n / 10) (Nat.digitChar (n % 10) :: acc)

/-- Minimal decimal representation of a natural number, as produced by
Rust's `Display` for unsigned integers. -/
def decRepr (n : Nat) : List Char :=
  decReprCore (n + 1) n []

/-! ### The component enumerations (from `src/targets.rs`) -/

/-- Modelled from the spec: the `Endianness` enum lives in the crate's
`triple` module, which is not among the provided sources; §4.1 of the spec
speaks of little- and big-endian buckets. -/
inductive Endianness
  | Little
  | Big
deriving DecidableEq, Repr

/-- Modelled from the spec: the `PointerWidth` enum lives in the crate's
`triple` module, which is not among the provided sources; §4.1 of the spec
puts every architecture in exactly one 16/32/64 bit-width bucket. -/
inductive PointerWidth
  | U16
  | U32
  | U64
deriving DecidableEq, Repr

/-- `enum ArmArchitecture` (39 variants). -/
inductive ArmArchitecture
  | Arm
  | Armeb
  | Armv4
  | Armv4t
  | Armv5t
  | Armv5te
  | Armv5tej
  | Armv6
  | Armv6j
  | Armv6k
  | Armv6z
  | Armv6kz
  | Armv6t2
  | Armv6m
  | Armv7
  | Armv7a
  | Armv7ve
  | Armv7m
  | Armv7r
  | Armv7s
  | Armv8
  | Armv8a
  | Armv8_1a
  | Armv8_2a
  | Armv8_3a
  | Armv8_4a
  | Armv8_5a
  | Armv8mBase
  | Armv8mMain
  | Armv8r
  | Armebv7r
  | Thumbeb
  | Thumbv6m
  | Thumbv7a
  | Thumbv7em
  | Thumbv7m
  | Thumbv7neon
  | Thumbv8mBase
  | Thumbv8mMain
deriving DecidableEq, Repr, Fintype

/-- `enum Aarch64Architecture`. -/
inductive Aarch64Architecture
  | Aarch64
  | Aarch64be
deriving DecidableEq, Repr, Fintype

/-- `enum Riscv32Architecture`. -/
inductive Riscv32Architecture
  | Riscv32
  | Riscv32i
  | Riscv32imac
  | Riscv32imc
deriving DecidableEq, Repr, Fintype

/-- `enum Riscv64Architecture`. -/
inductive Riscv64Architecture
  | Riscv64
  | Riscv64gc
  | Riscv64imac
deriving DecidableEq, Repr, Fintype

/-- `enum X86_32Architecture`. -/
inductive X86_32Architecture
  | I386
  | I586
  | I686
deriving DecidableEq, Repr, Fintype

/-- `enum Mips32Architecture`. -/
inductive Mips32Architecture
  | Mips
  | Mipsel
  | Mipsisa32r6
  | Mipsisa32r6el
deriving DecidableEq, Repr, Fintype

/-- `enum Mips64Architecture`. -/
inductive Mips64Architecture
  | Mips64
  | Mips64el
  | Mipsisa64r6
  | Mipsisa64r6el
deriving DecidableEq, Repr, Fintype

/-- `enum Architecture`. -/
inductive Architecture
  | Unknown
  | Arm (arm : ArmArchitecture)
  | AmdGcn
  | Aarch64 (aarch : Aarch64Architecture)
  | Asmjs
  | Hexagon
  | X86_32 (x : X86_32Architecture)
  | Mips32 (m : Mips32Architecture)
  | Mips64 (m : Mips64Architecture)
  | Msp430
  | Nvptx64
  | Powerpc
  | Powerpc64
  | Powerpc64le
  | Riscv32 (r : Riscv32Architecture)
  | Riscv64 (r : Riscv64Architecture)
  | S390x
  | Sparc
  | Sparc64
  | Sparcv9
  | Wasm32
  | Wasm64
  | X86_64
deriving DecidableEq, Repr, Fintype

/-- `enum CustomVendor`: an owned heap string or a static string slice. -/
inductive CustomVendor
  | Owned (s : String)
  | Static (s : String)
deriving DecidableEq, Repr

/-- `CustomVendor::as_str`. -/
def CustomVendor.as_str : CustomVendor → String
  | .Owned s => s
  | .Static s => s

/-- `impl PartialEq for CustomVendor`: equality of the dereferenced text,
independent of the representation. -/
def CustomVendor.beq (a b : CustomVendor) : Bool :=
  a.as_str == b.as_str

/-- `impl Hash for CustomVendor`: hash the dereferenced text (the hasher is
abstracted as a function of the hashed string). -/
def CustomVendor.hashWith (h : String → Nat) (cv : CustomVendor) : Nat :=
  h cv.as_str

/-- `enum Vendor`. -/
inductive Vendor
  | Unknown
  | Amd
  | Apple
  | Experimental
  | Fortanix
  | Nvidia
  | Pc
  | Rumprun
  | Sun
  | Uwp
  | Wrs
  | Custom (cv : CustomVendor)
deriving DecidableEq, Repr

/-- `#[derive(PartialEq)] enum Vendor`: variant-wise, with the custom
`CustomVendor` equality for the `Custom` payload. -/
def Vendor.beq : Vendor → Vendor → Bool
  | .Unknown, .Unknown => true
  | .Amd, .Amd => true
  | .Apple, .Apple => true
  | .Experimental, .Experimental => true
  | .Fortanix, .Fortanix => true
  | .Nvidia, .Nvidia => true
  | .Pc, .Pc => true
  | .Rumprun, .Rumprun => true
  | .Sun, .Sun => true
  | .Uwp, .Uwp => true
  | .Wrs, .Wrs => true
  | .Custom a, .Custom b => CustomVendor.beq a b
  | _, _ => false

/-- `enum OperatingSystem`.  The `MacOSX` payload fields are `u16` in the
source; they are embedded as `Nat`, with the `< 65536` bound stated where a
theorem needs it. -/
inductive OperatingSystem
  | Unknown
  | AmdHsa
  | Bitrig
  | Cloudabi
  | Cuda
  | Darwin
  | Dragonfly
  | Emscripten
  | Freebsd
  | Fuchsia
  | Haiku
  | Hermit
  | Illumos
  | Ios
  | L4re
  | Linux
  | MacOSX (major minor patch : Nat)
  | Nebulet
  | Netbsd
  | None_
  | Openbsd
  | OpTee
  | Psp
  | Redox
  | Solaris
  | Uefi
  | VxWorks
  | Wasi
  | Windows
deriving DecidableEq, Repr

/-- `enum Environment`. -/
inductive Environment
  | Unknown
  | AmdGiz
  | Android
  | Androideabi
  | Eabi
  | Eabihf
  | Gnu
  | Gnuabi64
  | Gnueabi
  | Gnueabihf
  | Gnuspe
  | Gnux32
  | Macabi
  | Musl
  | Musleabi
  | Musleabihf
  | Muslabi64
  | Msvc
  | Kernel
  | Uclibc
  | Sgx
  | Softfloat
  | Spe
  | TrustZone
deriving DecidableEq, Repr, Fintype

/-- `enum BinaryFormat`. -/
inductive BinaryFormat
  | Unknown
  | Elf
  | Coff
  | Macho
  | Wasm
deriving DecidableEq, Repr, Fintype

/-! ### Derived attributes (`impl ArmArchitecture`, `impl Aarch64Architecture`,
`impl Architecture`, `default_binary_format`) -/

/-- `ArmArchitecture::is_thumb`. -/
def ArmArchitecture.is_thumb : ArmArchitecture → Bool
  | .Arm | .Armeb | .Armv4 | .Armv4t | .Armv5t | .Armv5te | .Armv5tej
  | .Armv6 | .Armv6j | .Armv6k | .Armv6z | .Armv6kz | .Armv6t2 | .Armv6m
  | .Armv7 | .Armv7a | .Armv7ve | .Armv7m | .Armv7r | .Armv7s
  | .Armv8 | .Armv8a | .Armv8_1a | .Armv8_2a | .Armv8_3a | .Armv8_4a
  | .Armv8_5a | .Armv8mBase | .Armv8mMain | .Armv8r | .Armebv7r => false
  | .Thumbeb | .Thumbv6m | .Thumbv7a | .Thumbv7em | .Thumbv7m
  | .Thumbv7neon | .Thumbv8mBase | .Thumbv8mMain => true

/-- `ArmArchitecture::pointer_width`: `U32` for every variant. -/
def ArmArchitecture.pointer_width : ArmArchitecture → PointerWidth
  | _ => PointerWidth.U32

/-- `ArmArchitecture::endianness`. -/
def ArmArchitecture.endianness : ArmArchitecture → Endianness
  | .Arm | .Armv4 | .Armv4t | .Armv5t | .Armv5te | .Armv5tej
  | .Armv6 | .Armv6j | .Armv6k | .Armv6z | .Armv6kz | .Armv6t2 | .Armv6m
  | .Armv7 | .Armv7a | .Armv7ve | .Armv7m | .Armv7r | .Armv7s
  | .Armv8 | .Armv8a | .Armv8_1a | .Armv8_2a | .Armv8_3a | .Armv8_4a
  | .Armv8_5a | .Armv8mBase | .Armv8mMain | .Armv8r
  | .Thumbv6m | .Thumbv7a | .Thumbv7em | .Thumbv7m | .Thumbv7neon
  | .Thumbv8mBase | .Thumbv8mMain => Endianness.Little
  | .Armeb | .Armebv7r | .Thumbeb => Endianness.Big

/-- `Aarch64Architecture::is_thumb`. -/
def Aarch64Architecture.is_thumb : Aarch64Architecture → Bool
  | .Aarch64 | .Aarch64be => false

/-- `Aarch64Architecture::pointer_width`. -/
def Aarch64Architecture.pointer_width : Aarch64Architecture → PointerWidth
  | .Aarch64 | .Aarch64be => PointerWidth.U64

/-- `Aarch64Architecture::endianness`. -/
def Aarch64Architecture.endianness : Aarch64Architecture → Endianness
  | .Aarch64 => Endianness.Little
  | .Aarch64be => Endianness.Big

/-- `Architecture::endianness` (`Result<Endianness, ()>`, with `Err`
embedded as `none`). -/
def Architecture.endianness : Architecture → Option Endianness
  | .Unknown => none
  | .Arm arm => some arm.endianness
  | .Aarch64 aarch => some aarch.endianness
  | .AmdGcn | .Asmjs | .Hexagon | .X86_32 _
  | .Mips64 .Mips64el | .Mips32 .Mipsel
  | .Mips32 .Mipsisa32r6el | .Mips64 .Mipsisa64r6el
  | .Msp430 | .Nvptx64 | .Powerpc64le | .Riscv32 _ | .Riscv64 _
  | .Wasm32 | .Wasm64 | .X86_64 => some Endianness.Little
  | .Mips32 .Mips | .Mips64 .Mips64
  | .Mips32 .Mipsisa32r6 | .Mips64 .Mipsisa64r6
  | .Powerpc | .Powerpc64 | .S390x | .Sparc | .Sparc64 | .Sparcv9 =>
    some Endianness.Big

/-- `Architecture::pointer_width` (`Result<PointerWidth, ()>`, with `Err`
embedded as `none`). -/
def Architecture.pointer_width : Architecture → Option PointerWidth
  | .Unknown => none
  | .Msp430 => some PointerWidth.U16
  | .Arm arm => some arm.pointer_width
  | .Aarch64 aarch => some aarch.pointer_width
  | .Asmjs | .Hexagon | .X86_32 _ | .Riscv32 _ | .Sparc | .Wasm32
  | .Mips32 _ | .Powerpc => some PointerWidth.U32
  | .AmdGcn | .Powerpc64le | .Riscv64 _ | .X86_64 | .Mips64 _
  | .Nvptx64 | .Powerpc64 | .S390x | .Sparc64 | .Sparcv9 | .Wasm64 =>
    some PointerWidth.U64

/-- `default_binary_format`: the source takes a `&Triple` (from the absent
`triple` module) but reads only its `operating_system`, `environment` and
`architecture` fields, so it is embedded as a function of those three. -/
def default_binary_format (architecture : Architecture)
    (operating_system : OperatingSystem) (environment : Environment) :
    BinaryFormat :=
  match operating_system with
  | .None_ =>
    match environment with
    | .Eabi | .Eabihf => BinaryFormat.Elf
    | _ => BinaryFormat.Unknown
  | .Darwin | .Ios | .MacOSX _ _ _ => BinaryFormat.Macho
  | .Windows => BinaryFormat.Coff
  | .Nebulet | .Emscripten | .VxWorks | .Wasi | .Unknown =>
    match architecture with
    | .Wasm32 | .Wasm64 => BinaryFormat.Wasm
    | _ => BinaryFormat.Unknown
  | _ => BinaryFormat.Elf

/-! ### Formatters (`impl fmt::Display`) -/

/-- `impl Display for ArmArchitecture`. -/
def ArmArchitecture.to_string : ArmArchitecture → String
  | .Arm => "arm"
  | .Armeb => "armeb"
  | .Armv4 => "armv4"
  | .Armv4t => "armv4t"
  | .Armv5t => "armv5t"
  | .Armv5te => "armv5te"
  | .Armv5tej => "armv5tej"
  | .Armv6 => "armv6"
  | .Armv6j => "armv6j"
  | .Armv6k => "armv6k"
  | .Armv6z => "armv6z"
  | .Armv6kz => "armv6kz"
  | .Armv6t2 => "armv6t2"
  | .Armv6m => "armv6m"
  | .Armv7 => "armv7"
  | .Armv7a => "armv7a"
  | .Armv7ve => "armv7ve"
  | .Armv7m => "armv7m"
  | .Armv7r => "armv7r"
  | .Armv7s => "armv7s"
  | .Armv8 => "armv8"
  | .Armv8a => "armv8a"
  | .Armv8_1a => "armv8.1a"
  | .Armv8_2a => "armv8.2a"
  | .Armv8_3a => "armv8.3a"
  | .Armv8_4a => "armv8.4a"
  | .Armv8_5a => "armv8.5a"
  | .Armv8mBase => "armv8m.base"
  | .Armv8mMain => "armv8m.main"
  | .Armv8r => "armv8r"
  | .Thumbeb => "thumbeb"
  | .Thumbv6m => "thumbv6m"
  | .Thumbv7a => "thumbv7a"
  | .Thumbv7em => "thumbv7em"
  | .Thumbv7m => "thumbv7m"
  | .Thumbv7neon => "thumbv7neon"
  | .Thumbv8mBase => "thumbv8m.base"
  | .Thumbv8mMain => "thumbv8m.main"
  | .Armebv7r => "armebv7r"

/-- `impl Display for Aarch64Architecture`. -/
def Aarch64Architecture.to_string : Aarch64Architecture → String
  | .Aarch64 => "aarch64"
  | .Aarch64be => "aarch64be"

/-- `impl Display for Riscv32Architecture`. -/
def Riscv32Architecture.to_string : Riscv32Architecture → String
  | .Riscv32 => "riscv32"
  | .Riscv32i => "riscv32i"
  | .Riscv32imac => "riscv32imac"
  | .Riscv32imc => "riscv32imc"

/-- `impl Display for Riscv64Architecture`. -/
def Riscv64Architecture.to_string : Riscv64Architecture → String
  | .Riscv64 => "riscv64"
  | .Riscv64gc => "riscv64gc"
  | .Riscv64imac => "riscv64imac"

/-- `impl Display for X86_32Architecture`. -/
def X86_32Architecture.to_string : X86_32Architecture → String
  | .I386 => "i386"
  | .I586 => "i586"
  | .I686 => "i686"

/-- `impl Display for Mips32Architecture`. -/
def Mips32Architecture.to_string : Mips32Architecture → String
  | .Mips => "mips"
  | .Mipsel => "mipsel"
  | .Mipsisa32r6 => "mipsisa32r6"
  | .Mipsisa32r6el => "mipsisa32r6el"

/-- `impl Display for Mips64Architecture`. -/
def Mips64Architecture.to_string : Mips64Architecture → String
  | .Mips64 => "mips64"
  | .Mips64el => "mips64el"
  | .Mipsisa64r6 => "mipsisa64r6"
  | .Mipsisa64r6el => "mipsisa64r6el"

/-- `impl Display for Architecture`. -/
def Architecture.to_string : Architecture → String
  | .Arm arm => arm.to_string
  | .Aarch64 aarch => aarch.to_string
  | .Unknown => "unknown"
  | .AmdGcn => "amdgcn"
  | .Asmjs => "asmjs"
  | .Hexagon => "hexagon"
  | .X86_32 x => x.to_string
  | .Mips32 m => m.to_string
  | .Mips64 m => m.to_string
  | .Msp430 => "msp430"
  | .Nvptx64 => "nvptx64"
  | .Powerpc => "powerpc"
  | .Powerpc64 => "powerpc64"
  | .Powerpc64le => "powerpc64le"
  | .Riscv32 r => r.to_string
  | .Riscv64 r => r.to_string
  | .S390x => "s390x"
  | .Sparc => "sparc"
  | .Sparc64 => "sparc64"
  | .Sparcv9 => "sparcv9"
  | .Wasm32 => "wasm32"
  | .Wasm64 => "wasm64"
  | .X86_64 => "x86_64"

/-- `impl Display for Vendor`. -/
def Vendor.to_string : Vendor → String
  | .Unknown => "unknown"
  | .Amd => "amd"
  | .Apple => "apple"
  | .Experimental => "experimental"
  | .Fortanix => "fortanix"
  | .Nvidia => "nvidia"
  | .Pc => "pc"
  | .Rumprun => "rumprun"
  | .Sun => "sun"
  | .Uwp => "uwp"
  | .Wrs => "wrs"
  | .Custom name => name.as_str

/-- The chars of the literal `"macosx"`. -/
def macosxPrefixChars : List Char :=
  ['m', 'a', 'c', 'o', 's', 'x']

/-- `impl Display for OperatingSystem`; the `MacOSX` variant renders as
`macosx{major}.{minor}.{patch}` via `write!`. -/
def OperatingSystem.to_string : OperatingSystem → String
  | .Unknown => "unknown"
  | .AmdHsa => "amdhsa"
  | .Bitrig => "bitrig"
  | .Cloudabi => "cloudabi"
  | .Cuda => "cuda"
  | .Darwin => "darwin"
  | .Dragonfly => "dragonfly"
  | .Emscripten => "emscripten"
  | .Freebsd => "freebsd"
  | .Fuchsia => "fuchsia"
  | .Haiku => "haiku"
  | .Hermit => "hermit"
  | .Illumos => "illumos"
  | .Ios => "ios"
  | .L4re => "l4re"
  | .Linux => "linux"
  | .MacOSX major minor patch =>
    String.mk (macosxPrefixChars ++
      (decRepr major ++ ('.' :: (decRepr minor ++ ('.' :: decRepr patch)))))
  | .Nebulet => "nebulet"
  | .Netbsd => "netbsd"
  | .None_ => "none"
  | .Openbsd => "openbsd"
  | .OpTee => "optee"
  | .Psp => "psp"
  | .Redox => "redox"
  | .Solaris => "solaris"
  | .Uefi => "uefi"
  | .VxWorks => "vxworks"
  | .Wasi => "wasi"
  | .Windows => "windows"

/-- `impl Display for Environment`. -/
def Environment.to_string : Environment → String
  | .Unknown => "unknown"
  | .AmdGiz => "amdgiz"
  | .Android => "android"
  | .Androideabi => "androideabi"
  | .Eabi => "eabi"
  | .Eabihf => "eabihf"
  | .Gnu => "gnu"
  | .Gnuabi64 => "gnuabi64"
  | .Gnueabi => "gnueabi"
  | .Gnueabihf => "gnueabihf"
  | .Gnuspe => "gnuspe"
  | .Gnux32 => "gnux32"
  | .Macabi => "macabi"
  | .Musl => "musl"
  | .Musleabi => "musleabi"
  | .Musleabihf => "musleabihf"
  | .Muslabi64 => "muslabi64"
  | .Msvc => "msvc"
  | .Kernel => "kernel"
  | .Uclibc => "uclibc"
  | .Sgx => "sgx"
  | .Softfloat => "softfloat"
  | .Spe => "spe"
  | .TrustZone => "trustzone"

/-- `impl Display for BinaryFormat`. -/
def BinaryFormat.to_string : BinaryFormat → String
  | .Unknown => "unknown"
  | .Elf => "elf"
  | .Coff => "coff"
  | .Macho => "macho"
  | .Wasm => "wasm"

/-! ### Parsers (`impl FromStr`); `Err(())` is embedded as `none` -/

/-- `impl FromStr for ArmArchitecture`. -/
def ArmArchitecture.from_str (s : String) : Option ArmArchitecture :=
  if s = "arm" then some .Arm
  else if s = "armeb" then some .Armeb
  else if s = "armv4" then some .Armv4
  else if s = "armv4t" then some .Armv4t
  else if s = "armv5t" then some .Armv5t
  else if s = "armv5te" then some .Armv5te
  else if s = "armv5tej" then some .Armv5tej
  else if s = "armv6" then some .Armv6
  else if s = "armv6j" then some .Armv6j
  else if s = "armv6k" then some .Armv6k
  else if s = "armv6z" then some .Armv6z
  else if s = "armv6kz" then some .Armv6kz
  else if s = "armv6t2" then some .Armv6t2
  else if s = "armv6m" then some .Armv6m
  else if s = "armv7" then some .Armv7
  else if s = "armv7a" then some .Armv7a
  else if s = "armv7ve" then some .Armv7ve
  else if s = "armv7m" then some .Armv7m
  else if s = "armv7r" then some .Armv7r
  else if s = "armv7s" then some .Armv7s
  else if s = "armv8" then some .Armv8
  else if s = "armv8a" then some .Armv8a
  else if s = "armv8.1a" then some .Armv8_1a
  else if s = "armv8.2a" then some .Armv8_2a
  else if s = "armv8.3a" then some .Armv8_3a
  else if s = "armv8.4a" then some .Armv8_4a
  else if s = "armv8.5a" then some .Armv8_5a
  else if s = "armv8m.base" then some .Armv8mBase
  else if s = "armv8m.main" then some .Armv8mMain
  else if s = "armv8r" then some .Armv8r
  else if s = "thumbeb" then some .Thumbeb
  else if s = "thumbv6m" then some .Thumbv6m
  else if s = "thumbv7a" then some .Thumbv7a
  else if s = "thumbv7em" then some .Thumbv7em
  else if s = "thumbv7m" then some .Thumbv7m
  else if s = "thumbv7neon" then some .Thumbv7neon
  else if s = "thumbv8m.base" then some .Thumbv8mBase
  else if s = "thumbv8m.main" then some .Thumbv8mMain
  else if s = "armebv7r" then some .Armebv7r
  else none

/-- `impl FromStr for Aarch64Architecture` (note the `"arm64"` alias). -/
def Aarch64Architecture.from_str (s : String) : Option Aarch64Architecture :=
  if s = "aarch64" then some .Aarch64
  else if s = "arm64" then some .Aarch64
  else if s = "aarch64be" then some .Aarch64be
  else none

/-- `impl FromStr for Riscv32Architecture`. -/
def Riscv32Architecture.from_str (s : String) : Option Riscv32Architecture :=
  if s = "riscv32" then some .Riscv32
  else if s = "riscv32i" then some .Riscv32i
  else if s = "riscv32imac" then some .Riscv32imac
  else if s = "riscv32imc" then some .Riscv32imc
  else none

/-- `impl FromStr for Riscv64Architecture`. -/
def Riscv64Architecture.from_str (s : String) : Option Riscv64Architecture :=
  if s = "riscv64" then some .Riscv64
  else if s = "riscv64gc" then some .Riscv64gc
  else if s = "riscv64imac" then some .Riscv64imac
  else none

/-- `impl FromStr for X86_32Architecture`. -/
def X86_32Architecture.from_str (s : String) : Option X86_32Architecture :=
  if s = "i386" then some .I386
  else if s = "i586" then some .I586
  else if s = "i686" then some .I686
  else none

/-- `impl FromStr for Mips32Architecture`. -/
def Mips32Architecture.from_str (s : String) : Option Mips32Architecture :=
  if s = "mips" then some .Mips
  else if s = "mipsel" then some .Mipsel
  else if s = "mipsisa32r6" then some .Mipsisa32r6
  else if s = "mipsisa32r6el" then some .Mipsisa32r6el
  else none

/-- `impl FromStr for Mips64Architecture`. -/
def Mips64Architecture.from_str (s : String) : Option Mips64Architecture :=
  if s = "mips64" then some .Mips64
  else if s = "mips64el" then some .Mips64el
  else if s = "mipsisa64r6" then some .Mipsisa64r6
  else if s = "mipsisa64r6el" then some .Mipsisa64r6el
  else none

/-- `impl FromStr for Architecture`: the flat top-level names first, then
the sub-architecture family parsers in the source's fixed order (ARM,
AArch64, RISC-V32, RISC-V64, x86-32, MIPS32, MIPS64). -/
def Architecture.from_str (s : String) : Option Architecture :=
  if s = "unknown" then some .Unknown
  else if s = "amdgcn" then some .AmdGcn
  else if s = "asmjs" then some .Asmjs
  else if s = "hexagon" then some .Hexagon
  else if s = "msp430" then some .Msp430
  else if s = "nvptx64" then some .Nvptx64
  else if s = "powerpc" then some .Powerpc
  else if s = "powerpc64" then some .Powerpc64
  else if s = "powerpc64le" then some .Powerpc64le
  else if s = "s390x" then some .S390x
  else if s = "sparc" then some .Sparc
  else if s = "sparc64" then some .Sparc64
  else if s = "sparcv9" then some .Sparcv9
  else if s = "wasm32" then some .Wasm32
  else if s = "wasm64" then some .Wasm64
  else if s = "x86_64" then some .X86_64
  else
    match ArmArchitecture.from_str s with
    | some arm => some (.Arm arm)
    | none =>
      match Aarch64Architecture.from_str s with
      | some aarch64 => some (.Aarch64 aarch64)
      | none =>
        match Riscv32Architecture.from_str s with
        | some riscv32 => some (.Riscv32 riscv32)
        | none =>
          match Riscv64Architecture.from_str s with
          | some riscv64 => some (.Riscv64 riscv64)
          | none =>
            match X86_32Architecture.from_str s with
            | some x86_32 => some (.X86_32 x86_32)
            | none =>
              match Mips32Architecture.from_str s with
              | some mips32 => some (.Mips32 mips32)
              | none =>
                match Mips64Architecture.from_str s with
                | some mips64 => some (.Mips64 mips64)
                | none => none

/-- The `macosx` version sub-grammar of `OperatingSystem::from_str`: split
the remainder on `'.'`, take three `u16` parts, and fail if a fourth part
exists. -/
def macosxParse (cs : List Char) : Option OperatingSystem :=
  match (splitDot cs).map parseU16 with
  | some major :: some minor :: some patch :: rest =>
    if rest = [] then some (.MacOSX major minor patch) else none
  | _ => none

/-- The exact-match arm of `OperatingSystem::from_str` (the `Ok(match s
{ .. })` block reached when `s` does not start with `"macosx"`). -/
def os_flat_from_str (s : String) : Option OperatingSystem :=
  if s = "unknown" then some .Unknown
  else if s = "amdhsa" then some .AmdHsa
  else if s = "bitrig" then some .Bitrig
  else if s = "cloudabi" then some .Cloudabi
  else if s = "cuda" then some .Cuda
  else if s = "darwin" then some .Darwin
  else if s = "dragonfly" then some .Dragonfly
  else if s = "emscripten" then some .Emscripten
  else if s = "freebsd" then some .Freebsd
  else if s = "fuchsia" then some .Fuchsia
  else if s = "haiku" then some .Haiku
  else if s = "hermit" then some .Hermit
  else if s = "illumos" then some .Illumos
  else if s = "ios" then some .Ios
  else if s = "l4re" then some .L4re
  else if s = "linux" then some .Linux
  else if s = "nebulet" then some .Nebulet
  else if s = "netbsd" then some .Netbsd
  else if s = "none" then some .None_
  else if s = "openbsd" then some .Openbsd
  else if s = "optee" then some .OpTee
  else if s = "psp" then some .Psp
  else if s = "redox" then some .Redox
  else if s = "solaris" then some .Solaris
  else if s = "uefi" then some .Uefi
  else if s = "vxworks" then some .VxWorks
  else if s = "wasi" then some .Wasi
  else if s = "windows" then some .Windows
  else none

/-- `impl FromStr for OperatingSystem`: strings starting with `"macosx"`
go to the version sub-grammar (and never fall through); otherwise the
exact-match table. -/
def OperatingSystem.from_str (s : String) : Option OperatingSystem :=
  if s.data.take 6 = macosxPrefixChars then macosxParse (s.data.drop 6)
  else os_flat_from_str s

/-- `impl FromStr for Environment`. -/
def Environment.from_str (s : String) : Option Environment :=
  if s = "unknown" then some .Unknown
  else if s = "amdgiz" then some .AmdGiz
  else if s = "android" then some .Android
  else if s = "androideabi" then some .Androideabi
  else if s = "eabi" then some .Eabi
  else if s = "eabihf" then some .Eabihf
  else if s = "gnu" then some .Gnu
  else if s = "gnuabi64" then some .Gnuabi64
  else if s = "gnueabi" then some .Gnueabi
  else if s = "gnueabihf" then some .Gnueabihf
  else if s = "gnuspe" then some .Gnuspe
  else if s = "gnux32" then some .Gnux32
  else if s = "macabi" then some .Macabi
  else if s = "musl" then some .Musl
  else if s = "musleabi" then some .Musleabi
  else if s = "musleabihf" then some .Musleabihf
  else if s = "muslabi64" then some .Muslabi64
  else if s = "msvc" then some .Msvc
  else if s = "kernel" then some .Kernel
  else if s = "uclibc" then some .Uclibc
  else if s = "sgx" then some .Sgx
  else if s = "softfloat" then some .Softfloat
  else if s = "spe" then some .Spe
  else if s = "trustzone" then some .TrustZone
  else none

/-- `impl FromStr for BinaryFormat`. -/
def BinaryFormat.from_str (s : String) : Option BinaryFormat :=
  if s = "unknown" then some .Unknown
  else if s = "elf" then some .Elf
  else if s = "coff" then some .Coff
  else if s = "macho" then some .Macho
  else if s = "wasm" then some .Wasm
  else none

/-- The fixed known-vendor vocabulary of `Vendor::from_str`. -/
def knownVendorNames : List String :=
  ["unknown", "amd", "apple", "experimental", "fortanix", "nvidia", "pc",
   "rumprun", "sun", "uwp", "wrs"]

/-- `impl FromStr for Vendor`: the known vendors, then the custom-vendor
validation chain (empty check, reserved-vocabulary check, first-character
check, character-set check), producing an owned copy on success. -/
def Vendor.from_str (s : String) : Option Vendor :=
  if s = "unknown" then some .Unknown
  else if s = "amd" then some .Amd
  else if s = "apple" then some .Apple
  else if s = "experimental" then some .Experimental
  else if s = "fortanix" then some .Fortanix
  else if s = "nvidia" then some .Nvidia
  else if s = "pc" then some .Pc
  else if s = "rumprun" then some .Rumprun
  else if s = "sun" then some .Sun
  else if s = "uwp" then some .Uwp
  else if s = "wrs" then some .Wrs
  else if s = "" then none
  else if (Architecture.from_str s).isSome || (OperatingSystem.from_str s).isSome
      || (Environment.from_str s).isSome || (BinaryFormat.from_str s).isSome then
    none
  else
    match s.data with
    | [] => none
    | c :: _ =>
      if !c.isLower then none
      else if s.data.any (fun c => !(c.isLower || c.isDigit || c == '_' || c == '.')) then
        none
      else some (.Custom (.Owned s))

/-! ### Lemmas about the decimal printer and the `u16` parser -/

lemma decReprCore_append (fuel : Nat) :
    ∀ n acc, n < fuel → decReprCore fuel n acc = decReprCore fuel n [] ++ acc := by
  induction fuel with
  | zero => intro n acc h; omega
  | succ fuel ih =>
    intro n acc h
    by_cases h10 : n < 10
    · simp [decReprCore, h10]
    · have hdiv : n / 10 < fuel := by
        have := Nat.div_lt_self (show 0 < n by omega) (show 1 < 10 by omega)
        omega
      simp only [decReprCore, if_neg h10]
      rw [ih (n / 10) _ hdiv, ih (n / 10) [Nat.digitChar (n % 10)] hdiv,
        List.append_assoc]
      rfl

lemma decReprCore_eq_decRepr : ∀ n fuel, n < fuel →
    decReprCore fuel n [] = decRepr n := by
  intro n
  induction n using Nat.strong_induction_on with
  | _ n ih =>
    intro fuel h
    match fuel, h with
    | fuel + 1, h =>
      by_cases h10 : n < 10
      · simp [decReprCore, decRepr, h10]
      · have hdivn : n / 10 < n := Nat.div_lt_self (by omega) (by omega)
        have h1 : decReprCore (fuel + 1) n [] =
            decReprCore fuel (n / 10) [] ++ [Nat.digitChar (n % 10)] := by
          simp only [decReprCore, if_neg h10]
          exact decReprCore_append fuel (n / 10) _ (by omega)
        have h2 : decRepr n =
            decReprCore n (n / 10) [] ++ [Nat.digitChar (n % 10)] := by
          simp only [decRepr, decReprCore, if_neg h10]
          exact decReprCore_append n (n / 10) _ hdivn
        rw [h1, h2, ih (n / 10) hdivn fuel (by omega), ih (n / 10) hdivn n hdivn]

lemma decRepr_lt (n : Nat) (h : n < 10) : decRepr n = [Nat.digitChar n] := by
  simp [decRepr, decReprCore, h]

lemma decRepr_ge (n : Nat) (h : 10 ≤ n) :
    decRepr n = decRepr (n / 10) ++ [Nat.digitChar (n % 10)] := by
  have hdivn : n / 10 < n := Nat.div_lt_self (by omega) (by omega)
  rw [decRepr]
  simp only [decReprCore, if_neg (show ¬ n < 10 by omega)]
  rw [decReprCore_append n (n / 10) _ hdivn, decReprCore_eq_decRepr (n / 10) n hdivn]

lemma digitChar_toNat (d : Nat) (h : d < 10) :
    (Nat.digitChar d).toNat = 48 + d := by
  interval_cases d <;> rfl

lemma decRepr_digits : ∀ n, ∀ c ∈ decRepr n, 48 ≤ c.toNat ∧ c.toNat ≤ 57 := by
  intro n
  induction n using Nat.strong_induction_on with
  | _ n ih =>
    intro c hc
    by_cases h10 : n < 10
    · rw [decRepr_lt n h10] at hc
      simp only [List.mem_singleton] at hc
      subst hc
      rw [digitChar_toNat n h10]
      omega
    · rw [decRepr_ge n (by omega)] at hc
      rcases List.mem_append.mp hc with hm | hm
      · exact ih (n / 10) (Nat.div_lt_self (by omega) (by omega)) c hm
      · simp only [List.mem_singleton] at hm
        subst hm
        rw [digitChar_toNat (n % 10) (by omega)]
        omega

lemma decRepr_ne_nil (n : Nat) : decRepr n ≠ [] := by
  by_cases h10 : n < 10
  · rw [decRepr_lt n h10]; simp
  · rw [decRepr_ge n (by omega)]; simp

lemma charToDigit_digitChar (d : Nat) (h : d < 10) :
    charToDigit (Nat.digitChar d) = some d := by
  rw [charToDigit, digitChar_toNat d h, if_pos (by omega)]
  congr 1
  omega

lemma parseU16Loop_append (xs : List Char) :
    ∀ ys acc, parseU16Loop (xs ++ ys) acc =
      match parseU16Loop xs acc with
      | some a => parseU16Loop ys a
      | none => none := by
  induction xs with
  | nil => intro ys acc; rfl
  | cons c cs ih =>
    intro ys acc
    simp only [List.cons_append, parseU16Loop]
    cases hc : charToDigit c with
    | none => rfl
    | some d =>
      simp only
      by_cases h : acc * 10 + d < 65536
      · simp [h, ih]
      · simp [h]

lemma parseU16Loop_single (c : Char) (d acc : Nat) (h : charToDigit c = some d)
    (hlt : acc * 10 + d < 65536) : parseU16Loop [c] acc = some (acc * 10 + d) := by
  simp [parseU16Loop, h, hlt]

lemma parseU16Loop_decRepr : ∀ n, n < 65536 → parseU16Loop (decRepr n) 0 = some n := by
  intro n
  induction n using Nat.strong_induction_on with
  | _ n ih =>
    intro h
    by_cases h10 : n < 10
    · rw [decRepr_lt n h10]
      rw [parseU16Loop_single (Nat.digitChar n) n 0 (charToDigit_digitChar n h10)
        (by omega)]
      simp
    · have hdivn : n / 10 < n := Nat.div_lt_self (by omega) (by omega)
      rw [decRepr_ge n (by omega), parseU16Loop_append, ih (n / 10) hdivn (by omega)]
      simp only
      rw [parseU16Loop_single (Nat.digitChar (n % 10)) (n % 10) (n / 10)
        (charToDigit_digitChar (n % 10) (by omega)) (by omega)]
      congr 1
      omega

lemma parseU16_decRepr (n : Nat) (h : n < 65536) : parseU16 (decRepr n) = some n := by
  obtain ⟨c, cs, hc⟩ : ∃ c cs, decRepr n = c :: cs := by
    cases hd : decRepr n with
    | nil => exact absurd hd (decRepr_ne_nil n)
    | cons c cs => exact ⟨c, cs, rfl⟩
  have hdig := decRepr_digits n c (by rw [hc]; exact List.mem_cons_self c cs)
  have hplus : c ≠ '+' := by
    intro he
    rw [he] at hdig
    have h43 : ('+').toNat = 43 := rfl
    omega
  rw [hc, parseU16]
  simp only [if_neg hplus]
  rw [if_neg (by simp), ← hc, parseU16Loop_decRepr n h]

lemma parseU16Loop_bound : ∀ cs acc v, acc < 65536 →
    parseU16Loop cs acc = some v → v < 65536 := by
  intro cs
  induction cs with
  | nil =>
    intro acc v h hv
    simp only [parseU16Loop, Option.some.injEq] at hv
    omega
  | cons c cs ih =>
    intro acc v h hv
    simp only [parseU16Loop] at hv
    cases hc : charToDigit c with
    | none => rw [hc] at hv; simp at hv
    | some d =>
      rw [hc] at hv
      simp only at hv
      by_cases hlt : acc * 10 + d < 65536
      · rw [if_pos hlt] at hv
        exact ih _ v hlt hv
      · rw [if_neg hlt] at hv
        simp at hv

lemma parseU16_bound (cs : List Char) (v : Nat) (h : parseU16 cs = some v) :
    v < 65536 := by
  match cs with
  | [] => simp [parseU16] at h
  | c :: rest =>
    rw [parseU16] at h
    by_cases hd : (if c = '+' then rest else c :: rest) = []
    · rw [if_pos hd] at h; simp at h
    · rw [if_neg hd] at h
      exact parseU16Loop_bound _ 0 v (by omega) h

/-! ### Lemmas about `splitDot` -/

lemma splitDot_no_dot : ∀ cs : List Char, (∀ c ∈ cs, c ≠ '.') →
    splitDot cs = [cs] := by
  intro cs
  induction cs with
  | nil => intro _; rfl
  | cons c cs ih =>
    intro h
    rw [splitDot, if_neg (h c (List.mem_cons_self c cs)), ih (fun x hx => h x (List.mem_cons_of_mem c hx))]

lemma splitDot_append : ∀ a : List Char, ∀ rest : List Char,
    (∀ c ∈ a, c ≠ '.') →
    splitDot (a ++ '.' :: rest) = a :: splitDot rest := by
  intro a
  induction a with
  | nil =>
    intro rest _
    simp [splitDot]
  | cons c a ih =>
    intro rest h
    rw [List.cons_append, splitDot,
      if_neg (h c (List.mem_cons_self c a)),
      ih rest (fun x hx => h x (List.mem_cons_of_mem c hx))]

/-! ### The `macosx` round trip -/

lemma decRepr_no_dot (n : Nat) : ∀ c ∈ decRepr n, c ≠ '.' := by
  intro c hc he
  have h := decRepr_digits n c hc
  rw [he] at h
  have h46 : ('.').toNat = 46 := rfl
  omega

lemma macosxParse_decRepr (a b c : Nat) (ha : a < 65536) (hb : b < 65536)
    (hc : c < 65536) :
    macosxParse (decRepr a ++ ('.' :: (decRepr b ++ ('.' :: decRepr c)))) =
      some (.MacOSX a b c) := by
  rw [macosxParse, splitDot_append _ _ (decRepr_no_dot a),
    splitDot_append _ _ (decRepr_no_dot b), splitDot_no_dot _ (decRepr_no_dot c)]
  simp [parseU16_decRepr a ha, parseU16_decRepr b hb, parseU16_decRepr c hc]

lemma os_from_str_macosx (a b c : Nat) (ha : a < 65536) (hb : b < 65536)
    (hc : c < 65536) :
    OperatingSystem.from_str (OperatingSystem.to_string (.MacOSX a b c)) =
      some (.MacOSX a b c) := by
  have hdata : (OperatingSystem.to_string (.MacOSX a b c)).data =
      macosxPrefixChars ++
        (decRepr a ++ ('.' :: (decRepr b ++ ('.' :: decRepr c)))) :=
    rfl
  rw [OperatingSystem.from_str, hdata,
    List.take_left' (show macosxPrefixChars.length = 6 from rfl),
    List.drop_left' (show macosxPrefixChars.length = 6 from rfl),
    if_pos rfl, macosxParse_decRepr a b c ha hb hc]

/-! ### The custom-vendor validation path -/

/-- Spec-side transcription of the custom-vendor acceptance conditions of
§4.3 (used to compare the source's `Vendor::from_str` against the claimed
checklist): non-empty token, no collision with the Architecture /
OperatingSystem / Environment / BinaryFormat vocabularies, ASCII-lowercase
first character, and every character ASCII lowercase, ASCII digit, `'_'`
or `'.'`. -/
def spec_custom_vendor_ok (s : String) : Prop :=
  s ≠ "" ∧
  Architecture.from_str s = none ∧
  OperatingSystem.from_str s = none ∧
  Environment.from_str s = none ∧
  BinaryFormat.from_str s = none ∧
  s.data.head?.all Char.isLower = true ∧
  ∀ c ∈ s.data, (c.isLower || c.isDigit || c == '_' || c == '.') = true

instance spec_custom_vendor_ok_dec (s : String) :
    Decidable (spec_custom_vendor_ok s) := by
  unfold spec_custom_vendor_ok
  infer_instance

lemma vendor_from_str_not_known (s : String) (hk : s ∉ knownVendorNames) :
    Vendor.from_str s =
      (if s = "" then none
       else if (Architecture.from_str s).isSome || (OperatingSystem.from_str s).isSome
           || (Environment.from_str s).isSome || (BinaryFormat.from_str s).isSome then
         none
       else
         match s.data with
         | [] => none
         | c :: _ =>
           if !c.isLower then none
           else if s.data.any (fun c => !(c.isLower || c.isDigit || c == '_' || c == '.')) then
             none
           else some (.Custom (.Owned s))) := by
  simp only [knownVendorNames, List.mem_cons, List.not_mem_nil, or_false, not_or] at hk
  obtain ⟨h1, h2, h3, h4, h5, h6, h7, h8, h9, h10, h11⟩ := hk
  rw [Vendor.from_str, if_neg h1, if_neg h2, if_neg h3, if_neg h4, if_neg h5,
    if_neg h6, if_neg h7, if_neg h8, if_neg h9, if_neg h10, if_neg h11]

lemma string_data_cons (s : String) (h : s ≠ "") : ∃ c cs, s.data = c :: cs := by
  obtain ⟨l⟩ := s
  cases l with
  | nil => exact absurd rfl h
  | cons c cs => exact ⟨c, cs, rfl⟩

lemma vendor_from_str_custom_accept (s : String) (hk : s ∉ knownVendorNames)
    (hok : spec_custom_vendor_ok s) :
    Vendor.from_str s = some (.Custom (.Owned s)) := by
  obtain ⟨h0, harch, hos, henv, hbf, hhead, hall⟩ := hok
  obtain ⟨c, cs, hdata⟩ := string_data_cons s h0
  rw [hdata] at hhead
  simp only [List.head?, Option.all] at hhead
  rw [vendor_from_str_not_known s hk, if_neg h0,
    if_neg (by simp [harch, hos, henv, hbf]), hdata]
  simp only
  rw [if_neg (by simp [hhead]), if_neg ?hany]
  case hany =>
    simp only [Bool.not_eq_true, ← hdata, List.any_eq_false]
    intro x hx
    simp [hall x hx]

lemma vendor_from_str_custom_reject (s : String) (hk : s ∉ knownVendorNames)
    (hbad : ¬ spec_custom_vendor_ok s) :
    Vendor.from_str s = none := by
  rw [vendor_from_str_not_known s hk]
  by_cases h0 : s = ""
  · rw [if_pos h0]
  · rw [if_neg h0]
    by_cases hres : ((Architecture.from_str s).isSome || (OperatingSystem.from_str s).isSome
        || (Environment.from_str s).isSome || (BinaryFormat.from_str s).isSome) = true
    · rw [if_pos hres]
    · rw [if_neg hres]
      simp only [Bool.or_eq_true, not_or, Option.not_isSome_iff_eq_none] at hres
      obtain ⟨⟨⟨harch, hos⟩, henv⟩, hbf⟩ := hres
      obtain ⟨c, cs, hdata⟩ := string_data_cons s h0
      rw [hdata]
      simp only
      by_cases hlow : c.isLower = true
      · rw [if_neg (by simp [hlow])]
        by_cases hany : ((c :: cs).any
            (fun c => !(c.isLower || c.isDigit || c == '_' || c == '.'))) = true
        · rw [if_pos hany]
        · exfalso
          apply hbad
          rw [Bool.not_eq_true, List.any_eq_false] at hany
          refine ⟨h0, harch, hos, henv, hbf, ?_, ?_⟩
          · rw [hdata]
            simpa [List.head?, Option.all] using hlow
          · intro x hx
            rw [hdata] at hx
            have hb := hany x hx
            cases hxb : (x.isLower || x.isDigit || x == '_' || x == '.') with
            | false => rw [Bool.not_eq_true] at hb; rw [hxb] at hb; simp at hb
            | true => rfl
      · rw [if_pos (by simp [hlow])]

/-! ### Value-range side conditions of the embedding -/

/-- The `u16` range carried by the Rust types of the `MacOSX` payload
(type-level in the source, stated explicitly over the `Nat` embedding). -/
@[reducible] def OperatingSystem.fields_ok : OperatingSystem → Prop
  | .MacOSX major minor patch => major < 65536 ∧ minor < 65536 ∧ patch < 65536
  | _ => True

/-- A `Vendor` value whose custom text (if any) is itself accepted by the
vendor parser as a custom vendor: not a known vendor name, and passing the
§4.3 checks. -/
@[reducible] def Vendor.custom_ok : Vendor → Prop
  | .Custom cv => cv.as_str ∉ knownVendorNames ∧ spec_custom_vendor_ok cv.as_str
  | _ => True

/-! ### Round trips of the individual codecs -/

lemma arm_roundtrip :
    ∀ a : ArmArchitecture, ArmArchitecture.from_str a.to_string = some a := by
  decide

lemma aarch64_roundtrip :
    ∀ a : Aarch64Architecture, Aarch64Architecture.from_str a.to_string = some a := by
  decide

lemma riscv32_roundtrip :
    ∀ a : Riscv32Architecture, Riscv32Architecture.from_str a.to_string = some a := by
  decide

lemma riscv64_roundtrip :
    ∀ a : Riscv64Architecture, Riscv64Architecture.from_str a.to_string = some a := by
  decide

lemma x86_32_roundtrip :
    ∀ a : X86_32Architecture, X86_32Architecture.from_str a.to_string = some a := by
  decide

lemma mips32_roundtrip :
    ∀ a : Mips32Architecture, Mips32Architecture.from_str a.to_string = some a := by
  decide

lemma mips64_roundtrip :
    ∀ a : Mips64Architecture, Mips64Architecture.from_str a.to_string = some a := by
  decide

lemma arch_roundtrip :
    ∀ a : Architecture, Architecture.from_str a.to_string = some a := by
  decide

lemma env_roundtrip :
    ∀ e : Environment, Environment.from_str e.to_string = some e := by
  decide

lemma binary_format_roundtrip :
    ∀ b : BinaryFormat, BinaryFormat.from_str b.to_string = some b := by
  decide

lemma os_roundtrip : ∀ os : OperatingSystem, os.fields_ok →
    OperatingSystem.from_str os.to_string = some os := by
  intro os hok
  cases os
  case MacOSX a b c =>
    obtain ⟨ha, hb, hc⟩ := hok
    exact os_from_str_macosx a b c ha hb hc
  all_goals decide

lemma vendor_roundtrip : ∀ v : Vendor, v.custom_ok →
    ∃ v', Vendor.from_str v.to_string = some v' ∧ Vendor.beq v' v = true := by
  intro v hok
  cases v
  case Custom cv =>
    obtain ⟨hk, hcs⟩ := hok
    refine ⟨.Custom (.Owned cv.as_str), ?_, ?_⟩
    · exact vendor_from_str_custom_accept cv.as_str hk hcs
    · cases cv <;> simp [Vendor.beq, CustomVendor.beq, CustomVendor.as_str]
  all_goals exact ⟨_, rfl, rfl⟩

/-! ### The claims -/

/-- Claim C1 (counterexample): the claim as stated fails on the code.  The
constructible value `Vendor::Custom(CustomVendor::Static("amd"))` formats
to `"amd"`, which the vendor parser returns as the known vendor
`Vendor::Amd`; under the source's `PartialEq`, that result is not equal to
the original value, so `parse(format(c)) == c` fails for this constructed
value. -/
theorem claim_C1_counterexample :
    Vendor.to_string (.Custom (.Static "amd")) = "amd" ∧
    Vendor.from_str (Vendor.to_string (.Custom (.Static "amd"))) = some .Amd ∧
    Vendor.beq .Amd (.Custom (.Static "amd")) = false := by
  refine ⟨rfl, by decide, rfl⟩

/-- Claim C1 (amended): for every component type (Architecture and its
sub-architecture families, Vendor, OperatingSystem, Environment,
BinaryFormat) the codec round-trips — `parse(format(c)) == c` for every
constructed value `c`, and `format(parse(s)) == s` for every canonical
string `s` — provided `MacOSX` payload fields are within the `u16` range
(type-level in the source) and any custom vendor text is itself accepted by
the vendor parser as a custom vendor (in particular it is not one of the
fixed known vendor names and passes the §4.3 checks).  Vendor results are
compared with the source's content-based `PartialEq`. -/
theorem claim_C1 :
    (∀ a : ArmArchitecture, ArmArchitecture.from_str a.to_string = some a)
  ∧ (∀ a : Aarch64Architecture, Aarch64Architecture.from_str a.to_string = some a)
  ∧ (∀ a : Riscv32Architecture, Riscv32Architecture.from_str a.to_string = some a)
  ∧ (∀ a : Riscv64Architecture, Riscv64Architecture.from_str a.to_string = some a)
  ∧ (∀ a : X86_32Architecture, X86_32Architecture.from_str a.to_string = some a)
  ∧ (∀ a : Mips32Architecture, Mips32Architecture.from_str a.to_string = some a)
  ∧ (∀ a : Mips64Architecture, Mips64Architecture.from_str a.to_string = some a)
  ∧ (∀ a : Architecture, Architecture.from_str a.to_string = some a)
  ∧ (∀ e : Environment, Environment.from_str e.to_string = some e)
  ∧ (∀ b : BinaryFormat, BinaryFormat.from_str b.to_string = some b)
  ∧ (∀ os : OperatingSystem, os.fields_ok →
      OperatingSystem.from_str os.to_string = some os)
  ∧ (∀ v : Vendor, v.custom_ok →
      ∃ v', Vendor.from_str v.to_string = some v' ∧ Vendor.beq v' v = true)
  ∧ (∀ a : Architecture,
      (Architecture.from_str a.to_string).map Architecture.to_string =
        some a.to_string)
  ∧ (∀ os : OperatingSystem, os.fields_ok →
      (OperatingSystem.from_str os.to_string).map OperatingSystem.to_string =
        some os.to_string)
  ∧ (∀ v : Vendor, v.custom_ok →
      (Vendor.from_str v.to_string).map Vendor.to_string =
        some v.to_string) := by
  refine ⟨arm_roundtrip, aarch64_roundtrip, riscv32_roundtrip, riscv64_roundtrip,
    x86_32_roundtrip, mips32_roundtrip, mips64_roundtrip, arch_roundtrip,
    env_roundtrip, binary_format_roundtrip, os_roundtrip, vendor_roundtrip,
    ?_, ?_, ?_⟩
  · intro a
    rw [arch_roundtrip a, Option.map_some']
  · intro os hok
    rw [os_roundtrip os hok, Option.map_some']
  · intro v hok
    obtain ⟨v', hv', hbeq⟩ := vendor_roundtrip v hok
    rw [hv', Option.map_some']
    cases v' <;> cases v <;> simp_all [Vendor.beq, Vendor.to_string, CustomVendor.beq]

/-- Claim C1 (witness): the amended round trip applied at the concrete
values `OperatingSystem::MacOSX { 10, 7, 0 }` and
`Vendor::Custom(CustomVendor::Owned("customvendor"))`. -/
theorem claim_C1_witness :
    OperatingSystem.from_str
        (OperatingSystem.to_string (.MacOSX 10 7 0)) = some (.MacOSX 10 7 0) ∧
    ∃ v', Vendor.from_str (Vendor.to_string (.Custom (.Owned "customvendor"))) =
        some v' ∧ Vendor.beq v' (.Custom (.Owned "customvendor")) = true :=
  ⟨claim_C1.2.2.2.2.2.2.2.2.2.2.1 (.MacOSX 10 7 0) ⟨by decide, by decide, by decide⟩,
   claim_C1.2.2.2.2.2.2.2.2.2.2.2.1 (.Custom (.Owned "customvendor"))
     ⟨by decide, by decide, by decide, by decide, by decide, by decide, by decide, by decide⟩⟩

/-- Claim C2: for a token `s` outside the fixed known-vendor set, the
vendor parser accepts `s` as `Vendor::Custom` (constructing an owned copy)
exactly when `s` is non-empty, parses as none of Architecture /
OperatingSystem / Environment / BinaryFormat, has an ASCII-lowercase first
character, and contains only ASCII lowercase letters, ASCII digits, `'_'`
and `'.'`; every failing check yields the single undifferentiated parse
failure `none`. -/
theorem claim_C2 (s : String) (hk : s ∉ knownVendorNames) :
    (Vendor.from_str s = some (.Custom (.Owned s)) ↔ spec_custom_vendor_ok s)
  ∧ (¬ spec_custom_vendor_ok s → Vendor.from_str s = none) := by
  refine ⟨⟨?_, vendor_from_str_custom_accept s hk⟩, vendor_from_str_custom_reject s hk⟩
  intro h
  by_contra hbad
  rw [vendor_from_str_custom_reject s hk hbad] at h
  exact Option.noConfusion h

/-- Claim C2 (witness): the characterization applied at the accepted token
`"my_vendor.v2"` and at the rejected token `"CustomVendor"`. -/
theorem claim_C2_witness :
    Vendor.from_str "my_vendor.v2" = some (.Custom (.Owned "my_vendor.v2")) ∧
    Vendor.from_str "CustomVendor" = none :=
  ⟨(claim_C2 "my_vendor.v2" (by decide)).1.mpr
      ⟨by decide, by decide, by decide, by decide, by decide, by decide, by decide⟩,
   (claim_C2 "CustomVendor" (by decide)).2 (by decide)⟩

lemma ite_ne {A : Type} (p : Prop) [Decidable p] (x y z : A) (hx : x ≠ z)
    (hy : y ≠ z) : (if p then x else y) ≠ z := by
  split
  · exact hx
  · exact hy

lemma os_flat_not_macosx (s : String) (a b c : Nat) :
    os_flat_from_str s ≠ some (.MacOSX a b c) := by
  unfold os_flat_from_str
  repeat' apply ite_ne
  all_goals
    first
      | (intro hcc; exact Option.noConfusion hcc)
      | (intro hcc; injection hcc with h2; exact OperatingSystem.noConfusion h2)

lemma os_from_str_macosx_shape (s : String) (a b c : Nat)
    (h : OperatingSystem.from_str s = some (.MacOSX a b c)) :
    s.data.take 6 = macosxPrefixChars ∧
    (splitDot (s.data.drop 6)).map parseU16 = [some a, some b, some c] ∧
    a < 65536 ∧ b < 65536 ∧ c < 65536 := by
  rw [OperatingSystem.from_str] at h
  by_cases htake : s.data.take 6 = macosxPrefixChars
  · rw [if_pos htake, macosxParse] at h
    refine ⟨htake, ?_⟩
    split at h
    next major minor patch rest heq =>
      split at h
      next hrest =>
        subst hrest
        simp only [Option.some.injEq, OperatingSystem.MacOSX.injEq] at h
        obtain ⟨rfl, rfl, rfl⟩ := h
        refine ⟨heq, ?_, ?_, ?_⟩
        · have hm : some major ∈ (splitDot (s.data.drop 6)).map parseU16 := by
            rw [heq]; simp
          obtain ⟨x, -, hx⟩ := List.mem_map.mp hm
          exact parseU16_bound x _ hx
        · have hm : some minor ∈ (splitDot (s.data.drop 6)).map parseU16 := by
            rw [heq]; simp
          obtain ⟨x, -, hx⟩ := List.mem_map.mp hm
          exact parseU16_bound x _ hx
        · have hm : some patch ∈ (splitDot (s.data.drop 6)).map parseU16 := by
            rw [heq]; simp
          obtain ⟨x, -, hx⟩ := List.mem_map.mp hm
          exact parseU16_bound x _ hx
      next => exact absurd h (by simp)
    next => exact absurd h (by simp)
  · rw [if_neg htake] at h
    exact absurd h (os_flat_not_macosx s a b c)

/-- Claim C3 (counterexample): the claim's "only that form parses back to
the value" fails on the code.  `"macosx10.07.0"` is not the canonical form
`"macosx10.7.0"` of `MacOSX { 10, 7, 0 }`, yet it parses to that value,
because each component goes through the standard `u16` parser, which
accepts leading zeros. -/
theorem claim_C3_counterexample :
    OperatingSystem.from_str "macosx10.07.0" = some (.MacOSX 10 7 0) ∧
    OperatingSystem.to_string (.MacOSX 10 7 0) = "macosx10.7.0" ∧
    "macosx10.07.0" ≠ "macosx10.7.0" := by
  refine ⟨by decide, by decide, by decide⟩

/-- Claim C3 (amended): the OperatingSystem parser recognizes MacOSX
version strings as the prefix `"macosx"` followed by exactly three
dot-separated components each accepted by the unsigned 16-bit integer
parser with no trailing content; any deviation (missing or extra parts,
out-of-range number) is a parse failure.  The formatter renders
`MacOSX{major,minor,patch}` as `macosxMAJOR.MINOR.PATCH`, and that form
parses back to the value — though it is not the only such form, since the
`u16` component parser also accepts non-canonical spellings such as leading
zeros. -/
theorem claim_C3 :
    (∀ a b c : Nat, a < 65536 → b < 65536 → c < 65536 →
      OperatingSystem.from_str (OperatingSystem.to_string (.MacOSX a b c)) =
        some (.MacOSX a b c))
  ∧ (∀ (s : String) (a b c : Nat),
      OperatingSystem.from_str s = some (.MacOSX a b c) →
        s.data.take 6 = macosxPrefixChars ∧
        (splitDot (s.data.drop 6)).map parseU16 = [some a, some b, some c] ∧
        a < 65536 ∧ b < 65536 ∧ c < 65536)
  ∧ OperatingSystem.to_string (.MacOSX 10 7 0) = "macosx10.7.0"
  ∧ OperatingSystem.from_str "macosx10.7.0" = some (.MacOSX 10 7 0)
  ∧ OperatingSystem.from_str "macosx10.7" = none
  ∧ OperatingSystem.from_str "macosx10.7.0.1" = none
  ∧ OperatingSystem.from_str "macosx65536.0.0" = none
  ∧ OperatingSystem.from_str "macosx10.7.0 " = none := by
  refine ⟨fun a b c ha hb hc => os_from_str_macosx a b c ha hb hc,
    fun s a b c h => os_from_str_macosx_shape s a b c h,
    by decide, by decide, by decide, by decide, by decide, by decide⟩

/-- Claim C3 (witness): the round trip applied at the concrete value
`MacOSX { 300, 65535, 0 }`. -/
theorem claim_C3_witness :
    OperatingSystem.from_str (OperatingSystem.to_string (.MacOSX 300 65535 0)) =
      some (.MacOSX 300 65535 0) :=
  claim_C3.1 300 65535 0 (by decide) (by decide) (by decide)

/-- Claim C10: distinct non-canonical inputs — a leading zero and an
explicit plus sign in a version component — parse to the same `MacOSX`
value as the canonical string, and formatting that value reproduces only
the canonical string. -/
theorem claim_C10 :
    OperatingSystem.from_str "macosx010.7.0" = some (.MacOSX 10 7 0) ∧
    OperatingSystem.from_str "macosx+10.7.0" = some (.MacOSX 10 7 0) ∧
    OperatingSystem.from_str "macosx10.7.0" = some (.MacOSX 10 7 0) ∧
    "macosx010.7.0" ≠ "macosx+10.7.0" ∧
    "macosx010.7.0" ≠ "macosx10.7.0" ∧
    "macosx+10.7.0" ≠ "macosx10.7.0" ∧
    OperatingSystem.to_string (.MacOSX 10 7 0) = "macosx10.7.0" := by
  refine ⟨by decide, by decide, by decide, by decide, by decide, by decide, by decide⟩

/-- Claim C8: the AArch64 parser accepts `"arm64"` as a one-directional
alias of `"aarch64"` — both parse to `Aarch64` — while the formatter for
that value emits only `"aarch64"`; the alias also reaches the top-level
Architecture parser. -/
theorem claim_C8 :
    Aarch64Architecture.from_str "arm64" = some .Aarch64 ∧
    Aarch64Architecture.from_str "aarch64" = some .Aarch64 ∧
    Aarch64Architecture.from_str "arm64" = Aarch64Architecture.from_str "aarch64" ∧
    Aarch64Architecture.to_string .Aarch64 = "aarch64" ∧
    (∀ a : Aarch64Architecture, a.to_string ≠ "arm64") ∧
    Architecture.from_str "arm64" = some (.Aarch64 .Aarch64) := by
  refine ⟨by decide, by decide, by decide, by decide, by decide, by decide⟩

/-- Claim C9: `CustomVendor` equality holds exactly when the underlying
texts are equal, equal texts give equal hashes, and the `Owned`/`Static`
representation choice is not observable through equality or hashing. -/
theorem claim_C9 : ∀ a b : CustomVendor,
    (CustomVendor.beq a b = true ↔ a.as_str = b.as_str)
  ∧ (a.as_str = b.as_str →
      ∀ h : String → Nat, CustomVendor.hashWith h a = CustomVendor.hashWith h b)
  ∧ (∀ s : String, CustomVendor.beq (.Owned s) (.Static s) = true
      ∧ ∀ h : String → Nat,
        CustomVendor.hashWith h (.Owned s) = CustomVendor.hashWith h (.Static s)) := by
  intro a b
  refine ⟨?_, ?_, ?_⟩
  · simp [CustomVendor.beq, beq_iff_eq]
  · intro he h
    simp [CustomVendor.hashWith, he]
  · intro s
    exact ⟨by simp [CustomVendor.beq, CustomVendor.as_str], fun h => rfl⟩

/-- Claim C9 (witness): equality and hashing across the two
representations at the concrete text `"abc"`, with the length function as
hasher. -/
theorem claim_C9_witness :
    CustomVendor.beq (.Owned "abc") (.Static "abc") = true ∧
    CustomVendor.hashWith String.length (.Owned "abc") =
      CustomVendor.hashWith String.length (.Static "abc") :=
  ⟨(claim_C9 (.Owned "abc") (.Static "abc")).1.mpr rfl,
   (claim_C9 (.Owned "abc") (.Static "abc")).2.1 rfl String.length⟩

/-- Claim C4: `default_binary_format` is total (it is a Lean function into
`BinaryFormat`, with no failure case) and returns: for `None_`, `Elf` under
`Eabi`/`Eabihf` and `Unknown` otherwise; `Macho` for `Darwin`, `Ios` and
every `MacOSX` version; `Coff` for `Windows`; for `Nebulet`, `Emscripten`,
`VxWorks`, `Wasi` and `Unknown`, `Wasm` exactly for the `Wasm32`/`Wasm64`
architectures and `Unknown` otherwise; and `Elf` for every other operating
system. -/
theorem claim_C4 : ∀ (a : Architecture) (e : Environment),
    (default_binary_format a .None_ e =
      if e = .Eabi ∨ e = .Eabihf then BinaryFormat.Elf else BinaryFormat.Unknown)
  ∧ (default_binary_format a .Darwin e = BinaryFormat.Macho)
  ∧ (default_binary_format a .Ios e = BinaryFormat.Macho)
  ∧ (∀ x y z : Nat, default_binary_format a (.MacOSX x y z) e = BinaryFormat.Macho)
  ∧ (default_binary_format a .Windows e = BinaryFormat.Coff)
  ∧ (∀ os ∈ [OperatingSystem.Nebulet, .Emscripten, .VxWorks, .Wasi, .Unknown],
      default_binary_format a os e =
        if a = .Wasm32 ∨ a = .Wasm64 then BinaryFormat.Wasm else BinaryFormat.Unknown)
  ∧ (∀ os ∈ [OperatingSystem.AmdHsa, .Bitrig, .Cloudabi, .Cuda, .Dragonfly,
      .Freebsd, .Fuchsia, .Haiku, .Hermit, .Illumos, .L4re, .Linux, .Netbsd,
      .Openbsd, .OpTee, .Psp, .Redox, .Solaris, .Uefi],
      default_binary_format a os e = BinaryFormat.Elf) := by
  intro a e
  refine ⟨?_, rfl, rfl, fun x y z => rfl, rfl, ?_, ?_⟩
  · cases e <;> rfl
  · intro os hos
    simp only [List.mem_cons, List.not_mem_nil, or_false] at hos
    rcases hos with rfl | rfl | rfl | rfl | rfl <;> cases a <;> rfl
  · intro os hos
    simp only [List.mem_cons, List.not_mem_nil, or_false] at hos
    rcases hos with rfl | rfl | rfl | rfl | rfl | rfl | rfl | rfl | rfl | rfl
      | rfl | rfl | rfl | rfl | rfl | rfl | rfl | rfl | rfl <;> rfl

/-- Claim C4 (witness): the inference applied at `(Wasm32, Unknown, Gnu)`
and `(X86_64, Linux, Gnu)`. -/
theorem claim_C4_witness :
    default_binary_format .Wasm32 .Unknown .Gnu = BinaryFormat.Wasm ∧
    default_binary_format .X86_64 .Linux .Gnu = BinaryFormat.Elf := by
  constructor
  · have h := (claim_C4 .Wasm32 .Gnu).2.2.2.2.2.1 .Unknown (by decide)
    rw [if_pos (Or.inl rfl)] at h
    exact h
  · exact (claim_C4 .X86_64 .Gnu).2.2.2.2.2.2 .Linux (by decide)

/-- Claim C5: `Architecture::endianness` fails exactly on `Unknown` and
`Architecture::pointer_width` fails exactly on `Unknown`; for nested
architectures both delegate to the sub-architecture functions. -/
theorem claim_C5 :
    (∀ a : Architecture,
      (Architecture.endianness a = none ↔ a = .Unknown) ∧
      (Architecture.pointer_width a = none ↔ a = .Unknown))
  ∧ (∀ r : ArmArchitecture,
      Architecture.endianness (.Arm r) = some r.endianness ∧
      Architecture.pointer_width (.Arm r) = some r.pointer_width)
  ∧ (∀ r : Aarch64Architecture,
      Architecture.endianness (.Aarch64 r) = some r.endianness ∧
      Architecture.pointer_width (.Aarch64 r) = some r.pointer_width) := by
  refine ⟨by decide, by decide, by decide⟩

/-- Claim C6 (counterexample): the ARM sub-architecture family has 39
variants, not 40 as the claim states. -/
theorem claim_C6_counterexample :
    Fintype.card ArmArchitecture = 39 ∧ ¬ Fintype.card ArmArchitecture = 40 := by
  constructor
  · decide
  · decide

/-- Claim C6 (amended): `is_thumb` partitions the 39 ARM variants into
Thumb-encoded (exactly the variants whose canonical name starts with
`thumb`) versus standard-encoded; `pointer_width` is 32-bit for every
variant; `endianness` is little-endian except for the three big-endian
names `armeb`, `armebv7r` and `thumbeb`. -/
theorem claim_C6 :
    Fintype.card ArmArchitecture = 39
  ∧ (∀ a : ArmArchitecture,
      a.is_thumb = true ↔ (a.to_string).data.take 5 = ['t', 'h', 'u', 'm', 'b'])
  ∧ (∀ a : ArmArchitecture, a.pointer_width = PointerWidth.U32)
  ∧ (∀ a : ArmArchitecture,
      a.endianness =
        if a = .Armeb ∨ a = .Armebv7r ∨ a = .Thumbeb
        then Endianness.Big else Endianness.Little) := by
  refine ⟨by decide, by decide, by decide, by decide⟩

/-- The flat top-level names of `Architecture::from_str`. -/
def archFlatNames : List String :=
  ["unknown", "amdgcn", "asmjs", "hexagon", "msp430", "nvptx64", "powerpc",
   "powerpc64", "powerpc64le", "s390x", "sparc", "sparc64", "sparcv9",
   "wasm32", "wasm64", "x86_64"]

lemma arch_from_str_not_flat (s : String) (hs : s ∉ archFlatNames) :
    Architecture.from_str s =
      (match ArmArchitecture.from_str s with
       | some arm => some (.Arm arm)
       | none =>
         match Aarch64Architecture.from_str s with
         | some aarch64 => some (.Aarch64 aarch64)
         | none =>
           match Riscv32Architecture.from_str s with
           | some riscv32 => some (.Riscv32 riscv32)
           | none =>
             match Riscv64Architecture.from_str s with
             | some riscv64 => some (.Riscv64 riscv64)
             | none =>
               match X86_32Architecture.from_str s with
               | some x86_32 => some (.X86_32 x86_32)
               | none =>
                 match Mips32Architecture.from_str s with
                 | some mips32 => some (.Mips32 mips32)
                 | none =>
                   match Mips64Architecture.from_str s with
                   | some mips64 => some (.Mips64 mips64)
                   | none => none) := by
  simp only [archFlatNames, List.mem_cons, List.not_mem_nil, or_false,
    not_or] at hs
  obtain ⟨h1, h2, h3, h4, h5, h6, h7, h8, h9, h10, h11, h12, h13, h14, h15, h16⟩ := hs
  rw [Architecture.from_str, if_neg h1, if_neg h2, if_neg h3, if_neg h4,
    if_neg h5, if_neg h6, if_neg h7, if_neg h8, if_neg h9, if_neg h10,
    if_neg h11, if_neg h12, if_neg h13, if_neg h14, if_neg h15, if_neg h16]

/-- Claim C7: the Architecture parser resolves the 16 flat top-level names
first; on any other string it equals the fixed-priority fallback chain over
the family parsers (ARM, AArch64, RISC-V32, RISC-V64, x86-32, MIPS32,
MIPS64), returning the first success, and it fails exactly when all seven
family parsers fail. -/
theorem claim_C7 :
    (Architecture.from_str "unknown" = some .Unknown
      ∧ Architecture.from_str "amdgcn" = some .AmdGcn
      ∧ Architecture.from_str "asmjs" = some .Asmjs
      ∧ Architecture.from_str "hexagon" = some .Hexagon
      ∧ Architecture.from_str "msp430" = some .Msp430
      ∧ Architecture.from_str "nvptx64" = some .Nvptx64
      ∧ Architecture.from_str "powerpc" = some .Powerpc
      ∧ Architecture.from_str "powerpc64" = some .Powerpc64
      ∧ Architecture.from_str "powerpc64le" = some .Powerpc64le
      ∧ Architecture.from_str "s390x" = some .S390x
      ∧ Architecture.from_str "sparc" = some .Sparc
      ∧ Architecture.from_str "sparc64" = some .Sparc64
      ∧ Architecture.from_str "sparcv9" = some .Sparcv9
      ∧ Architecture.from_str "wasm32" = some .Wasm32
      ∧ Architecture.from_str "wasm64" = some .Wasm64
      ∧ Architecture.from_str "x86_64" = some .X86_64)
  ∧ (∀ s : String, s ∉ archFlatNames →
      Architecture.from_str s =
        (match ArmArchitecture.from_str s with
         | some arm => some (.Arm arm)
         | none =>
           match Aarch64Architecture.from_str s with
           | some aarch64 => some (.Aarch64 aarch64)
           | none =>
             match Riscv32Architecture.from_str s with
             | some riscv32 => some (.Riscv32 riscv32)
             | none =>
               match Riscv64Architecture.from_str s with
               | some riscv64 => some (.Riscv64 riscv64)
               | none =>
                 match X86_32Architecture.from_str s with
                 | some x86_32 => some (.X86_32 x86_32)
                 | none =>
                   match Mips32Architecture.from_str s with
                   | some mips32 => some (.Mips32 mips32)
                   | none =>
                     match Mips64Architecture.from_str s with
                     | some mips64 => some (.Mips64 mips64)
                     | none => none))
  ∧ (∀ s : String, s ∉ archFlatNames →
      (Architecture.from_str s = none ↔
        ArmArchitecture.from_str s = none ∧
        Aarch64Architecture.from_str s = none ∧
        Riscv32Architecture.from_str s = none ∧
        Riscv64Architecture.from_str s = none ∧
        X86_32Architecture.from_str s = none ∧
        Mips32Architecture.from_str s = none ∧
        Mips64Architecture.from_str s = none)) := by
  refine ⟨⟨rfl, rfl, rfl, rfl, rfl, rfl, rfl, rfl, rfl, rfl, rfl, rfl, rfl,
    rfl, rfl, rfl⟩, fun s hs => arch_from_str_not_flat s hs, ?_⟩
  intro s hs
  rw [arch_from_str_not_flat s hs]
  cases h1 : ArmArchitecture.from_str s with
  | some v => simp [h1]
  | none =>
    cases h2 : Aarch64Architecture.from_str s with
    | some v => simp [h1, h2]
    | none =>
      cases h3 : Riscv32Architecture.from_str s with
      | some v => simp [h1, h2, h3]
      | none =>
        cases h4 : Riscv64Architecture.from_str s with
        | some v => simp [h1, h2, h3, h4]
        | none =>
          cases h5 : X86_32Architecture.from_str s with
          | some v => simp [h1, h2, h3, h4, h5]
          | none =>
            cases h6 : Mips32Architecture.from_str s with
            | some v => simp [h1, h2, h3, h4, h5, h6]
            | none =>
              cases h7 : Mips64Architecture.from_str s with
              | some v => simp [h1, h2, h3, h4, h5, h6, h7]
              | none => simp [h1, h2, h3, h4, h5, h6, h7]

/-- Claim C7 (witness): the fallback chain applied at the non-flat string
`"thumbv7em"`, which the ARM family parser resolves first. -/
theorem claim_C7_witness :
    ("thumbv7em" : String) ∉ archFlatNames ∧
    Architecture.from_str "thumbv7em" = some (.Arm .Thumbv7em) :=
  ⟨by decide, (claim_C7.2.1 "thumbv7em" (by decide)).trans (by decide)⟩

end TargetLexicon
